import Mathlib

/-!
Shallow embedding of the JUCE `ComboBox` item-store and selection state
machine (src/src/gui/components/controls/juce_ComboBox.cpp).

The widget state is modelled by `ComboBoxState`: the ordered item store
(`items`), the pending-separator flag, the two selection ids
(`currentId`, `lastCurrentId`), and the embedded text label (its text and
editable flag).  Assertions (`jassert`) are development-time only; the
embedding models release-build behaviour, where the guarded `if`
conditions alone decide what happens.  Rendering, notification delivery
and the modal popup display are external collaborators and are not part
of the state; the popup-menu *construction* loop of `showPopup` is
modelled by `buildPopupMenu`.
-/

/-- One entry of the item store (`ComboBox::ItemInfo`). -/
structure ItemInfo where
  name : String
  itemId : Int
  isEnabled : Bool
  isHeading : Bool
deriving DecidableEq

/-- `ItemInfo::isSeparator`: an entry with empty name. -/
def ItemInfo.isSeparator (it : ItemInfo) : Bool :=
  it.name == ""

/-- `ItemInfo::isRealItem`: neither a heading nor an empty-name entry. -/
def ItemInfo.isRealItem (it : ItemInfo) : Bool :=
  ! (it.isHeading || it.name == "")

/-- The modelled widget state. -/
structure ComboBoxState where
  items : List ItemInfo
  separatorPending : Bool
  currentId : Int
  lastCurrentId : Int
  labelText : String
  labelEditable : Bool
  noChoicesMessage : String
deriving DecidableEq

/-- State of a freshly constructed `ComboBox`. -/
def initState : ComboBoxState :=
  { items := []
    separatorPending := false
    currentId := 0
    lastCurrentId := 0
    labelText := ""
    labelEditable := false
    noChoicesMessage := "(no choices)" }

/-- The zero-id empty-name entry materialized for a pending separator. -/
def separatorItem : ItemInfo :=
  { name := "", itemId := 0, isEnabled := false, isHeading := false }

/-- `ComboBox::getItemForId`: reverse linear scan, rejecting id 0
(so the last entry bearing the id wins). -/
def getItemForId (s : ComboBoxState) (itemId : Int) : Option ItemInfo :=
  if itemId = 0 then none
  else s.items.reverse.find? (fun it => it.itemId == itemId)

/-- `ComboBox::addItem`: in release builds only empty text and zero id are
rejected (the duplicate-id check is an assertion only); a pending
separator is materialized first. -/
def addItem (s : ComboBoxState) (newItemText : String) (newItemId : Int) :
    ComboBoxState :=
  if newItemText ≠ "" ∧ newItemId ≠ 0 then
    let base := if s.separatorPending then s.items ++ [separatorItem] else s.items
    { s with
      items := base ++
        [{ name := newItemText, itemId := newItemId,
           isEnabled := true, isHeading := false }]
      separatorPending := false }
  else s

/-- `ComboBox::addSeparator`: only queues a pending separator, and only
when the store is non-empty. -/
def addSeparator (s : ComboBoxState) : ComboBoxState :=
  { s with separatorPending := ! s.items.isEmpty }

/-- `ComboBox::addSectionHeading`: rejects empty names; materializes a
pending separator, then appends a zero-id heading entry. -/
def addSectionHeading (s : ComboBoxState) (headingName : String) :
    ComboBoxState :=
  if headingName ≠ "" then
    let base := if s.separatorPending then s.items ++ [separatorItem] else s.items
    { s with
      items := base ++
        [{ name := headingName, itemId := 0,
           isEnabled := true, isHeading := true }]
      separatorPending := false }
  else s

/-- In-place mutation of the entry `getItemForId` would return: the update
is applied to the *last* entry satisfying `p` (the reverse scan's match),
and to nothing when no entry matches. -/
def updateLast (p : ItemInfo → Bool) (f : ItemInfo → ItemInfo) :
    List ItemInfo → List ItemInfo
  | [] => []
  | it :: rest =>
    if rest.any p then it :: updateLast p f rest
    else if p it then f it :: rest
    else it :: rest

/-- `ComboBox::setItemEnabled`: no-op when the id is absent (or 0). -/
def setItemEnabled (s : ComboBoxState) (itemId : Int) (shouldBeEnabled : Bool) :
    ComboBoxState :=
  if itemId = 0 then s
  else { s with
         items := updateLast (fun it => it.itemId == itemId)
           (fun it => { it with isEnabled := shouldBeEnabled }) s.items }

/-- `ComboBox::changeItemText`: renames the entry found by id; no-op when
the id is absent (the assertion is development-time only). -/
def changeItemText (s : ComboBoxState) (itemId : Int) (newText : String) :
    ComboBoxState :=
  if itemId = 0 then s
  else { s with
         items := updateLast (fun it => it.itemId == itemId)
           (fun it => { it with name := newText }) s.items }

/-- `ComboBox::getItemForIndex`: forward scan counting only real items. -/
def getItemForIndexAux : List ItemInfo → Int → Int → Option ItemInfo
  | [], _, _ => none
  | it :: rest, n, index =>
    if it.isRealItem then
      if n = index then some it else getItemForIndexAux rest (n + 1) index
    else getItemForIndexAux rest n index

/-- `ComboBox::getItemForIndex` on the widget state. -/
def getItemForIndex (s : ComboBoxState) (index : Int) : Option ItemInfo :=
  getItemForIndexAux s.items 0 index

/-- `ComboBox::getNumItems`: number of real items. -/
def getNumItems (s : ComboBoxState) : Nat :=
  s.items.countP (fun it => it.isRealItem)

/-- `ComboBox::getItemText`. -/
def getItemText (s : ComboBoxState) (index : Int) : String :=
  match getItemForIndex s index with
  | some it => it.name
  | none => ""

/-- `ComboBox::getItemId`. -/
def getItemId (s : ComboBoxState) (index : Int) : Int :=
  match getItemForIndex s index with
  | some it => it.itemId
  | none => 0

/-- `ComboBox::indexOfItemId`: forward scan returning the real-item index
of the first real entry bearing the id, `-1` when absent. -/
def indexOfItemIdAux : List ItemInfo → Int → Int → Int
  | [], _, _ => -1
  | it :: rest, itemId, n =>
    if it.isRealItem then
      if it.itemId = itemId then n
      else indexOfItemIdAux rest itemId (n + 1)
    else indexOfItemIdAux rest itemId n

/-- `ComboBox::indexOfItemId` on the widget state. -/
def indexOfItemId (s : ComboBoxState) (itemId : Int) : Int :=
  indexOfItemIdAux s.items itemId 0

/-- `ComboBox::getSelectedItemIndex`: derived from `currentId` and the
label text; `-1` when the label disagrees with the item's name. -/
def getSelectedItemIndex (s : ComboBoxState) : Int :=
  let index := indexOfItemId s s.currentId
  if s.labelText ≠ getItemText s index then -1 else index

/-- `ComboBox::getSelectedId`: the current id, but only when the label
text still equals the name of the entry bearing that id. -/
def getSelectedId (s : ComboBoxState) : Int :=
  match getItemForId s s.currentId with
  | some it => if s.labelText = it.name then it.itemId else 0
  | none => 0

/-- `ComboBox::setSelectedId`: sets the label to the found item's name
(empty when absent) and commits both id fields, skipping the update when
nothing would change. -/
def setSelectedId (s : ComboBoxState) (newItemId : Int) : ComboBoxState :=
  let newItemText :=
    match getItemForId s newItemId with
    | some it => it.name
    | none => ""
  if s.lastCurrentId ≠ newItemId ∨ s.labelText ≠ newItemText then
    { s with labelText := newItemText, lastCurrentId := newItemId,
             currentId := newItemId }
  else s

/-- `ComboBox::setSelectedItemIndex`: resolves the index to an id. -/
def setSelectedItemIndex (s : ComboBoxState) (index : Int) : ComboBoxState :=
  setSelectedId s (getItemId s index)

/-- `ComboBox::clear`: empties the store, drops the pending separator,
and (for a non-editable label) deselects via `setSelectedItemIndex (-1)`. -/
def clear (s : ComboBoxState) : ComboBoxState :=
  let s1 := { s with items := ([] : List ItemInfo), separatorPending := false }
  if s1.labelEditable then s1 else setSelectedItemIndex s1 (-1)

/-- `ComboBox::getText`: delegates to the label. -/
def getText (s : ComboBoxState) : String :=
  s.labelText

/-- The reverse scan of `ComboBox::setText` for a real item whose name
equals the given text. -/
def lookupItemByName (s : ComboBoxState) (newText : String) : Option ItemInfo :=
  s.items.reverse.find? (fun it => it.isRealItem && it.name == newText)

/-- `ComboBox::setText`: select the matching real item if any, otherwise
clear the selection ids and write the text into the label. -/
def setText (s : ComboBoxState) (newText : String) : ComboBoxState :=
  match lookupItemByName s newText with
  | some it => setSelectedId s it.itemId
  | none =>
    let s1 := { s with lastCurrentId := 0, currentId := 0 }
    if s1.labelText ≠ newText then { s1 with labelText := newText } else s1

/-- `ComboBox::setEditableText` (restricted to the modelled state). -/
def setEditableText (s : ComboBoxState) (isEditable : Bool) : ComboBoxState :=
  { s with labelEditable := isEditable }

/-- One entry of the transient popup menu handed to the menu service. -/
inductive MenuEntry where
  | separator
  | sectionHeader (name : String)
  | entry (itemId : Int) (name : String) (isEnabled : Bool) (isTicked : Bool)
deriving DecidableEq

/-- The body of `showPopup`'s loop: how one store entry is translated. -/
def menuEntryOf (selectedId : Int) (it : ItemInfo) : MenuEntry :=
  if it.isSeparator then MenuEntry.separator
  else if it.isHeading then MenuEntry.sectionHeader it.name
  else MenuEntry.entry it.itemId it.name it.isEnabled (it.itemId == selectedId)

/-- `showPopup`'s loop over the store, appending to the menu built so far. -/
def addMenuEntries (selectedId : Int) : List ItemInfo → List MenuEntry → List MenuEntry
  | [], menu => menu
  | it :: rest, menu => addMenuEntries selectedId rest (menu ++ [menuEntryOf selectedId it])

/-- The menu `ComboBox::showPopup` builds: the translated store, plus the
disabled "no choices" placeholder when the store is empty. -/
def buildPopupMenu (s : ComboBoxState) : List MenuEntry :=
  let menu := addMenuEntries (getSelectedId s) s.items []
  if s.items.isEmpty then menu ++ [MenuEntry.entry 1 s.noChoicesMessage false false]
  else menu

/-!
## Reachability

`Reachable` closes the initial state under every modelled public
mutation.  `ReachableNE` additionally insists that `changeItemText` is
never given empty text, and `ReachableWF` further insists that `addItem`
is never given an id already present — the two development-time
assertions the widget cannot enforce in release builds.
-/

/-- States reachable from a fresh widget by the public mutations. -/
inductive Reachable : ComboBoxState → Prop where
  | init : Reachable initState
  | add (s : ComboBoxState) (t : String) (i : Int) :
      Reachable s → Reachable (addItem s t i)
  | heading (s : ComboBoxState) (t : String) :
      Reachable s → Reachable (addSectionHeading s t)
  | sep (s : ComboBoxState) :
      Reachable s → Reachable (addSeparator s)
  | enable (s : ComboBoxState) (i : Int) (b : Bool) :
      Reachable s → Reachable (setItemEnabled s i b)
  | rename (s : ComboBoxState) (i : Int) (t : String) :
      Reachable s → Reachable (changeItemText s i t)
  | wipe (s : ComboBoxState) :
      Reachable s → Reachable (clear s)
  | selId (s : ComboBoxState) (i : Int) :
      Reachable s → Reachable (setSelectedId s i)
  | selIdx (s : ComboBoxState) (i : Int) :
      Reachable s → Reachable (setSelectedItemIndex s i)
  | text (s : ComboBoxState) (t : String) :
      Reachable s → Reachable (setText s t)
  | editable (s : ComboBoxState) (b : Bool) :
      Reachable s → Reachable (setEditableText s b)

/-- Reachability where `changeItemText` always gets non-empty text. -/
inductive ReachableNE : ComboBoxState → Prop where
  | init : ReachableNE initState
  | add (s : ComboBoxState) (t : String) (i : Int) :
      ReachableNE s → ReachableNE (addItem s t i)
  | heading (s : ComboBoxState) (t : String) :
      ReachableNE s → ReachableNE (addSectionHeading s t)
  | sep (s : ComboBoxState) :
      ReachableNE s → ReachableNE (addSeparator s)
  | enable (s : ComboBoxState) (i : Int) (b : Bool) :
      ReachableNE s → ReachableNE (setItemEnabled s i b)
  | rename (s : ComboBoxState) (i : Int) (t : String) :
      ReachableNE s → t ≠ "" → ReachableNE (changeItemText s i t)
  | wipe (s : ComboBoxState) :
      ReachableNE s → ReachableNE (clear s)
  | selId (s : ComboBoxState) (i : Int) :
      ReachableNE s → ReachableNE (setSelectedId s i)
  | selIdx (s : ComboBoxState) (i : Int) :
      ReachableNE s → ReachableNE (setSelectedItemIndex s i)
  | text (s : ComboBoxState) (t : String) :
      ReachableNE s → ReachableNE (setText s t)
  | editable (s : ComboBoxState) (b : Bool) :
      ReachableNE s → ReachableNE (setEditableText s b)

/-- Reachability where, additionally, `addItem` ids are always fresh. -/
inductive ReachableWF : ComboBoxState → Prop where
  | init : ReachableWF initState
  | add (s : ComboBoxState) (t : String) (i : Int) :
      ReachableWF s → getItemForId s i = none → ReachableWF (addItem s t i)
  | heading (s : ComboBoxState) (t : String) :
      ReachableWF s → ReachableWF (addSectionHeading s t)
  | sep (s : ComboBoxState) :
      ReachableWF s → ReachableWF (addSeparator s)
  | enable (s : ComboBoxState) (i : Int) (b : Bool) :
      ReachableWF s → ReachableWF (setItemEnabled s i b)
  | rename (s : ComboBoxState) (i : Int) (t : String) :
      ReachableWF s → t ≠ "" → ReachableWF (changeItemText s i t)
  | wipe (s : ComboBoxState) :
      ReachableWF s → ReachableWF (clear s)
  | selId (s : ComboBoxState) (i : Int) :
      ReachableWF s → ReachableWF (setSelectedId s i)
  | selIdx (s : ComboBoxState) (i : Int) :
      ReachableWF s → ReachableWF (setSelectedItemIndex s i)
  | text (s : ComboBoxState) (t : String) :
      ReachableWF s → ReachableWF (setText s t)
  | editable (s : ComboBoxState) (b : Bool) :
      ReachableWF s → ReachableWF (setEditableText s b)

theorem reachableWF_toNE {s : ComboBoxState} (h : ReachableWF s) : ReachableNE s := by
  induction h with
  | init => exact ReachableNE.init
  | add s t i _ _ ih => exact ReachableNE.add s t i ih
  | heading s t _ ih => exact ReachableNE.heading s t ih
  | sep s _ ih => exact ReachableNE.sep s ih
  | enable s i b _ ih => exact ReachableNE.enable s i b ih
  | rename s i t _ ht ih => exact ReachableNE.rename s i t ih ht
  | wipe s _ ih => exact ReachableNE.wipe s ih
  | selId s i _ ih => exact ReachableNE.selId s i ih
  | selIdx s i _ ih => exact ReachableNE.selIdx s i ih
  | text s t _ ih => exact ReachableNE.text s t ih
  | editable s b _ ih => exact ReachableNE.editable s b ih

/-!
## Basic lemmas about the operations
-/

theorem setSelectedId_items (s : ComboBoxState) (x : Int) :
    (setSelectedId s x).items = s.items := by
  simp only [setSelectedId]
  split <;> rfl

theorem setSelectedId_separatorPending (s : ComboBoxState) (x : Int) :
    (setSelectedId s x).separatorPending = s.separatorPending := by
  simp only [setSelectedId]
  split <;> rfl

theorem setSelectedId_labelEditable (s : ComboBoxState) (x : Int) :
    (setSelectedId s x).labelEditable = s.labelEditable := by
  simp only [setSelectedId]
  split <;> rfl

theorem setText_items (s : ComboBoxState) (t : String) :
    (setText s t).items = s.items := by
  simp only [setText]
  split
  · exact setSelectedId_items _ _
  · split <;> rfl

theorem setText_separatorPending (s : ComboBoxState) (t : String) :
    (setText s t).separatorPending = s.separatorPending := by
  simp only [setText]
  split
  · exact setSelectedId_separatorPending _ _
  · split <;> rfl

theorem clear_items (s : ComboBoxState) : (clear s).items = [] := by
  simp only [clear]
  split
  · rfl
  · exact setSelectedId_items _ _

theorem clear_separatorPending (s : ComboBoxState) :
    (clear s).separatorPending = false := by
  simp only [clear]
  split
  · rfl
  · exact setSelectedId_separatorPending _ _

theorem updateLast_of_any_eq_false (p : ItemInfo → Bool) (f : ItemInfo → ItemInfo)
    (l : List ItemInfo) (h : l.any p = false) : updateLast p f l = l := by
  cases l with
  | nil => rfl
  | cons it rest =>
    simp only [List.any_cons, Bool.or_eq_false_iff] at h
    simp [updateLast, h.1, h.2]

theorem mem_updateLast {p : ItemInfo → Bool} {f : ItemInfo → ItemInfo}
    {l : List ItemInfo} {y : ItemInfo} (h : y ∈ updateLast p f l) :
    y ∈ l ∨ ∃ x, x ∈ l ∧ p x = true ∧ y = f x := by
  induction l with
  | nil => simp [updateLast] at h
  | cons it rest ih =>
    simp only [updateLast] at h
    by_cases hrest : rest.any p = true
    · simp only [hrest, if_true] at h
      rcases List.mem_cons.mp h with h1 | h2
      · exact Or.inl (by simp [h1])
      · rcases ih h2 with h3 | ⟨x, hx, hpx, hyx⟩
        · exact Or.inl (List.mem_cons_of_mem _ h3)
        · exact Or.inr ⟨x, List.mem_cons_of_mem _ hx, hpx, hyx⟩
    · simp only [Bool.not_eq_true] at hrest
      simp only [hrest, Bool.false_eq_true, if_false] at h
      by_cases hit : p it = true
      · simp only [hit, if_true] at h
        rcases List.mem_cons.mp h with h1 | h2
        · exact Or.inr ⟨it, List.mem_cons_self it rest, hit, h1⟩
        · exact Or.inl (List.mem_cons_of_mem _ h2)
      · simp only [hit, if_false] at h
        exact Or.inl h

theorem map_updateLast {β : Type} (p : ItemInfo → Bool) (f : ItemInfo → ItemInfo)
    (g : ItemInfo → β) (l : List ItemInfo)
    (h : ∀ x ∈ l, p x = true → g (f x) = g x) :
    (updateLast p f l).map g = l.map g := by
  induction l with
  | nil => rfl
  | cons it rest ih =>
    simp only [updateLast]
    by_cases hrest : rest.any p = true
    · simp only [hrest, if_true, List.map_cons]
      rw [ih (fun x hx hpx => h x (List.mem_cons_of_mem _ hx) hpx)]
    · simp only [Bool.not_eq_true] at hrest
      simp only [hrest, Bool.false_eq_true, if_false]
      by_cases hit : p it = true
      · simp only [hit, if_true, List.map_cons]
        rw [h it (List.mem_cons_self it rest) hit]
      · simp only [hit]
        simp

theorem updateLast_eq_nil_iff (p : ItemInfo → Bool) (f : ItemInfo → ItemInfo)
    (l : List ItemInfo) : updateLast p f l = [] ↔ l = [] := by
  cases l with
  | nil => simp [updateLast]
  | cons it rest =>
    simp only [updateLast]
    constructor
    · intro h
      by_cases hrest : rest.any p = true
      · simp [hrest] at h
      · simp only [Bool.not_eq_true] at hrest
        simp only [hrest, Bool.false_eq_true, if_false] at h
        by_cases hit : p it = true
        · simp [hit] at h
        · simp [hit] at h
    · intro h
      exact absurd h (List.cons_ne_nil _ _)

/-!
## Lemmas about `getItemForId`
-/

theorem getItemForId_eq_some {s : ComboBoxState} {x : Int} {it : ItemInfo}
    (h : getItemForId s x = some it) :
    it.itemId = x ∧ x ≠ 0 ∧ it ∈ s.items := by
  by_cases hx : x = 0
  · simp [getItemForId, hx] at h
  · simp only [getItemForId, hx, if_false] at h
    refine ⟨?_, hx, ?_⟩
    · have := List.find?_some h
      exact eq_of_beq this
    · have := List.mem_of_find?_eq_some h
      exact List.mem_reverse.mp this

theorem getItemForId_isSome_of_mem {s : ComboBoxState} {x : Int} {y : ItemInfo}
    (hy : y ∈ s.items) (hid : y.itemId = x) (hx : x ≠ 0) :
    (getItemForId s x).isSome = true := by
  simp only [getItemForId, hx, if_false]
  rw [List.find?_isSome]
  exact ⟨y, List.mem_reverse.mpr hy, by simp [hid]⟩

theorem getItemForId_eq_none {s : ComboBoxState} {x : Int}
    (h : getItemForId s x = none) (hx : x ≠ 0) :
    ∀ y ∈ s.items, (y.itemId == x) = false := by
  simp only [getItemForId, hx, if_false] at h
  intro y hy
  have := List.find?_eq_none.mp h y (List.mem_reverse.mpr hy)
  simpa using this

theorem getItemForId_congr {s1 s2 : ComboBoxState} (h : s1.items = s2.items)
    (x : Int) : getItemForId s1 x = getItemForId s2 x := by
  simp [getItemForId, h]

theorem getItemForId_zero (s : ComboBoxState) : getItemForId s 0 = none := by
  simp [getItemForId]

/-!
## The core `setSelectedId`/`getSelectedId` interaction
-/

theorem getSelectedId_def (s : ComboBoxState) :
    getSelectedId s =
      match getItemForId s s.currentId with
      | some it => if s.labelText = it.name then it.itemId else 0
      | none => 0 := rfl

theorem setSelectedId_getText (s : ComboBoxState) (x : Int) :
    getText (setSelectedId s x) =
      match getItemForId s x with
      | some it => it.name
      | none => "" := by
  simp only [setSelectedId, getText]
  cases hf : getItemForId s x with
  | some it =>
    simp only [hf]
    by_cases hc : s.lastCurrentId ≠ x ∨ s.labelText ≠ it.name
    · simp [hc]
    · push_neg at hc
      simp [hc.1, hc.2]
  | none =>
    simp only [hf]
    by_cases hc : s.lastCurrentId ≠ x ∨ s.labelText ≠ ""
    · simp [hc]
    · push_neg at hc
      simp [hc.1, hc.2]

theorem setSelectedId_currentId (s : ComboBoxState) (x : Int)
    (h : s.lastCurrentId = s.currentId) :
    (setSelectedId s x).currentId = x := by
  simp only [setSelectedId]
  split
  · rfl
  · next hc =>
      push_neg at hc
      exact h.symm.trans hc.1

theorem setSelectedId_getSelectedId (s : ComboBoxState) (x : Int)
    (h : s.lastCurrentId = s.currentId) :
    getSelectedId (setSelectedId s x) =
      match getItemForId s x with
      | some _ => x
      | none => 0 := by
  have hcur := setSelectedId_currentId s x h
  have hlab := setSelectedId_getText s x
  simp only [getText] at hlab
  simp only [getSelectedId, hcur, getItemForId_congr (setSelectedId_items s x) x]
  cases hf : getItemForId s x with
  | none => simp
  | some it =>
    obtain ⟨hid, _, _⟩ := getItemForId_eq_some hf
    rw [hf] at hlab
    simp [hlab, hid]

/-!
## The `lastCurrentId = currentId` synchronisation invariant
-/

theorem addItem_lastCurrentId (s : ComboBoxState) (t : String) (i : Int) :
    (addItem s t i).lastCurrentId = s.lastCurrentId := by
  simp only [addItem]; split <;> rfl

theorem addItem_currentId (s : ComboBoxState) (t : String) (i : Int) :
    (addItem s t i).currentId = s.currentId := by
  simp only [addItem]; split <;> rfl

theorem addSectionHeading_lastCurrentId (s : ComboBoxState) (t : String) :
    (addSectionHeading s t).lastCurrentId = s.lastCurrentId := by
  simp only [addSectionHeading]; split <;> rfl

theorem addSectionHeading_currentId (s : ComboBoxState) (t : String) :
    (addSectionHeading s t).currentId = s.currentId := by
  simp only [addSectionHeading]; split <;> rfl

theorem setItemEnabled_lastCurrentId (s : ComboBoxState) (i : Int) (b : Bool) :
    (setItemEnabled s i b).lastCurrentId = s.lastCurrentId := by
  simp only [setItemEnabled]; split <;> rfl

theorem setItemEnabled_currentId (s : ComboBoxState) (i : Int) (b : Bool) :
    (setItemEnabled s i b).currentId = s.currentId := by
  simp only [setItemEnabled]; split <;> rfl

theorem changeItemText_lastCurrentId (s : ComboBoxState) (i : Int) (t : String) :
    (changeItemText s i t).lastCurrentId = s.lastCurrentId := by
  simp only [changeItemText]; split <;> rfl

theorem changeItemText_currentId (s : ComboBoxState) (i : Int) (t : String) :
    (changeItemText s i t).currentId = s.currentId := by
  simp only [changeItemText]; split <;> rfl

theorem setSelectedId_sync (s : ComboBoxState) (x : Int)
    (h : s.lastCurrentId = s.currentId) :
    (setSelectedId s x).lastCurrentId = (setSelectedId s x).currentId := by
  simp only [setSelectedId]
  split
  · rfl
  · exact h

theorem setText_sync (s : ComboBoxState) (t : String)
    (h : s.lastCurrentId = s.currentId) :
    (setText s t).lastCurrentId = (setText s t).currentId := by
  simp only [setText]
  cases hl : lookupItemByName s t with
  | some it => exact setSelectedId_sync s it.itemId h
  | none =>
    simp only []
    split <;> rfl

theorem clear_sync (s : ComboBoxState)
    (h : s.lastCurrentId = s.currentId) :
    (clear s).lastCurrentId = (clear s).currentId := by
  simp only [clear]
  split
  · exact h
  · exact setSelectedId_sync _ _ h

/-- Every mutation keeps the shadow id `lastCurrentId` equal to
`currentId`: a reachable widget state is always synchronised. -/
theorem reachable_sync {s : ComboBoxState} (h : Reachable s) :
    s.lastCurrentId = s.currentId := by
  induction h with
  | init => rfl
  | add s t i _ ih => rw [addItem_lastCurrentId, addItem_currentId]; exact ih
  | heading s t _ ih =>
      rw [addSectionHeading_lastCurrentId, addSectionHeading_currentId]; exact ih
  | sep s _ ih => exact ih
  | enable s i b _ ih =>
      rw [setItemEnabled_lastCurrentId, setItemEnabled_currentId]; exact ih
  | rename s i t _ ih =>
      rw [changeItemText_lastCurrentId, changeItemText_currentId]; exact ih
  | wipe s _ ih => exact clear_sync s ih
  | selId s i _ ih => exact setSelectedId_sync s i ih
  | selIdx s i _ ih => exact setSelectedId_sync s _ ih
  | text s t _ ih => exact setText_sync s t ih
  | editable s b _ ih => exact ih

/-- C2: after `setSelectedId x`, `getSelectedId` returns `x` exactly when
`x` is a known item id (in which case the label was set to that item's
name), and `0` in every other case. -/
theorem C2_setSelectedId_getSelectedId (s : ComboBoxState) (x : Int)
    (h : Reachable s) :
    (getSelectedId (setSelectedId s x) =
      match getItemForId s x with
      | some _ => x
      | none => 0)
    ∧ (getText (setSelectedId s x) =
      match getItemForId s x with
      | some it => it.name
      | none => "") :=
  ⟨setSelectedId_getSelectedId s x (reachable_sync h), setSelectedId_getText s x⟩

theorem C2_witness :
    (getSelectedId (setSelectedId (addItem initState "A" 1) 1) =
      match getItemForId (addItem initState "A" 1) 1 with
      | some _ => 1
      | none => 0)
    ∧ (getText (setSelectedId (addItem initState "A" 1) 1) =
      match getItemForId (addItem initState "A" 1) 1 with
      | some it => it.name
      | none => "") :=
  C2_setSelectedId_getSelectedId (addItem initState "A" 1) 1
    (Reachable.add initState "A" 1 Reachable.init)

/-!
## `setText`
-/

theorem lookupItemByName_some {s : ComboBoxState} {t : String} {it : ItemInfo}
    (h : lookupItemByName s t = some it) :
    it.isRealItem = true ∧ it.name = t ∧ it ∈ s.items := by
  have hp := List.find?_some h
  rw [Bool.and_eq_true] at hp
  refine ⟨hp.1, eq_of_beq hp.2, ?_⟩
  have := List.mem_of_find?_eq_some h
  exact List.mem_reverse.mp this

theorem setText_currentId_of_no_match {s : ComboBoxState} {t : String}
    (h : lookupItemByName s t = none) : (setText s t).currentId = 0 := by
  simp only [setText, h]
  split <;> rfl

theorem setText_getText_of_no_match {s : ComboBoxState} {t : String}
    (h : lookupItemByName s t = none) : getText (setText s t) = t := by
  simp only [setText, h, getText]
  split
  · rfl
  · next hc =>
      push_neg at hc
      exact hc

/-- C3: when the text names a real item, `setText` is exactly
`setSelectedId` on that item's id (so the id becomes selected);
otherwise it clears the selection and writes the text into the label. -/
theorem C3_setText (s : ComboBoxState) (t : String) (h : Reachable s) :
    match lookupItemByName s t with
    | some it =>
        it.isRealItem = true ∧ it.name = t
        ∧ setText s t = setSelectedId s it.itemId
        ∧ getSelectedId (setText s t) = it.itemId
    | none =>
        (setText s t).currentId = 0
        ∧ getSelectedId (setText s t) = 0
        ∧ (s.labelEditable = true → getText (setText s t) = t) := by
  cases hl : lookupItemByName s t with
  | some it =>
    obtain ⟨hreal, hname, hmem⟩ := lookupItemByName_some hl
    have heq : setText s t = setSelectedId s it.itemId := by
      simp [setText, hl]
    refine ⟨hreal, hname, heq, ?_⟩
    rw [heq, setSelectedId_getSelectedId s it.itemId (reachable_sync h)]
    by_cases hz : it.itemId = 0
    · rw [hz, getItemForId_zero]
    · cases hg : getItemForId s it.itemId with
      | some it2 => simp
      | none =>
        have := getItemForId_isSome_of_mem hmem rfl hz
        rw [hg] at this
        simp at this
  | none =>
    have hc := setText_currentId_of_no_match hl
    refine ⟨hc, ?_, fun _ => setText_getText_of_no_match hl⟩
    simp only [getSelectedId, hc, getItemForId_zero]

theorem C3_witness :
    match lookupItemByName (addItem initState "A" 1) "A" with
    | some it =>
        it.isRealItem = true ∧ it.name = "A"
        ∧ setText (addItem initState "A" 1) "A"
            = setSelectedId (addItem initState "A" 1) it.itemId
        ∧ getSelectedId (setText (addItem initState "A" 1) "A") = it.itemId
    | none =>
        (setText (addItem initState "A" 1) "A").currentId = 0
        ∧ getSelectedId (setText (addItem initState "A" 1) "A") = 0
        ∧ ((addItem initState "A" 1).labelEditable = true
            → getText (setText (addItem initState "A" 1) "A") = "A") :=
  C3_setText (addItem initState "A" 1) "A" (Reachable.add initState "A" 1 Reachable.init)

/-!
## `getSelectedItemIndex` (C7)
-/

/-- C7: the selected index is derived on each call: it is `-1` whenever
the label text disagrees with the text of the item bearing the current
id, and otherwise it is that item's index — an index whose item's name
equals the current label text. -/
theorem C7_getSelectedItemIndex (s : ComboBoxState) :
    (getSelectedItemIndex s = -1
      ∨ (getSelectedItemIndex s = indexOfItemId s s.currentId
         ∧ getItemText s (getSelectedItemIndex s) = s.labelText))
    ∧ (s.labelText ≠ getItemText s (indexOfItemId s s.currentId)
        → getSelectedItemIndex s = -1) := by
  by_cases hne : s.labelText ≠ getItemText s (indexOfItemId s s.currentId)
  · have h1 : getSelectedItemIndex s = -1 := by
      simp [getSelectedItemIndex, hne]
    exact ⟨Or.inl h1, fun _ => h1⟩
  · push_neg at hne
    have h1 : getSelectedItemIndex s = indexOfItemId s s.currentId := by
      simp [getSelectedItemIndex, hne]
    refine ⟨Or.inr ⟨h1, ?_⟩, fun hc => absurd hne.symm ?_⟩
    · rw [h1, hne]
    · intro h2
      exact hc (h2.symm)

theorem C7_witness :
    (getSelectedItemIndex (setSelectedId (addItem initState "A" 1) 1) = -1
      ∨ (getSelectedItemIndex (setSelectedId (addItem initState "A" 1) 1)
           = indexOfItemId (setSelectedId (addItem initState "A" 1) 1)
               (setSelectedId (addItem initState "A" 1) 1).currentId
         ∧ getItemText (setSelectedId (addItem initState "A" 1) 1)
             (getSelectedItemIndex (setSelectedId (addItem initState "A" 1) 1))
           = (setSelectedId (addItem initState "A" 1) 1).labelText))
    ∧ ((setSelectedId (addItem initState "A" 1) 1).labelText
        ≠ getItemText (setSelectedId (addItem initState "A" 1) 1)
            (indexOfItemId (setSelectedId (addItem initState "A" 1) 1)
              (setSelectedId (addItem initState "A" 1) 1).currentId)
        → getSelectedItemIndex (setSelectedId (addItem initState "A" 1) 1) = -1) :=
  C7_getSelectedItemIndex (setSelectedId (addItem initState "A" 1) 1)

/-!
## Lazy separator materialization (C6)
-/

/-- C6: `addSeparator` only queues; an immediately following `clear`
leaves no separator behind, while a following valid `addItem`
materializes exactly one zero-id empty-name entry before the new item. -/
theorem C6_addSeparator_lazy (s : ComboBoxState) (t : String) (i : Int)
    (ht : t ≠ "") (hi : i ≠ 0) (hne : s.items ≠ []) :
    (addSeparator s).items = s.items
    ∧ (clear (addSeparator s)).items = []
    ∧ (addItem (addSeparator s) t i).items
        = s.items ++ [separatorItem,
            { name := t, itemId := i, isEnabled := true, isHeading := false }] := by
  refine ⟨rfl, clear_items _, ?_⟩
  have hpend : (addSeparator s).separatorPending = true := by
    simp [addSeparator, List.isEmpty_iff, hne]
  have hitems : (addSeparator s).items = s.items := rfl
  simp [addItem, ht, hi, hpend, hitems]

theorem C6_witness :
    (addSeparator (addItem initState "A" 1)).items = (addItem initState "A" 1).items
    ∧ (clear (addSeparator (addItem initState "A" 1))).items = []
    ∧ (addItem (addSeparator (addItem initState "A" 1)) "B" 2).items
        = (addItem initState "A" 1).items ++ [separatorItem,
            { name := "B", itemId := 2, isEnabled := true, isHeading := false }] :=
  C6_addSeparator_lazy (addItem initState "A" 1) "B" 2
    (by decide) (by decide) (by decide)

/-!
## Release-build misuse handling (C4)
-/

/-- C4 (amended): empty text, zero id and renaming an absent id are
silent no-ops; but `addItem` with an id already present is *not* a no-op
in release builds — the duplicate is appended like any valid item. -/
theorem C4_release_misuse (s : ComboBoxState) (t t2 : String) (i j : Int)
    (it : ItemInfo) (ht : t ≠ "") (hj : j ≠ 0)
    (hdup : getItemForId s j = some it) (habsent : getItemForId s i = none) :
    addItem s "" i = s
    ∧ addItem s t 0 = s
    ∧ changeItemText s i t2 = s
    ∧ (addItem s t j).items
        = (if s.separatorPending then s.items ++ [separatorItem] else s.items)
          ++ [{ name := t, itemId := j, isEnabled := true, isHeading := false }] := by
  refine ⟨by simp [addItem], by simp [addItem], ?_, by simp [addItem, ht, hj]⟩
  by_cases hi0 : i = 0
  · simp [changeItemText, hi0]
  · have hany : s.items.any (fun y => y.itemId == i) = false := by
      rw [List.any_eq_false]
      intro y hy
      simp [getItemForId_eq_none habsent hi0 y hy]
    simp [changeItemText, hi0, updateLast_of_any_eq_false _ _ _ hany]

theorem C4_witness :
    addItem (addItem initState "A" 1) "" 9 = addItem initState "A" 1
    ∧ addItem (addItem initState "A" 1) "B" 0 = addItem initState "A" 1
    ∧ changeItemText (addItem initState "A" 1) 9 "C" = addItem initState "A" 1
    ∧ (addItem (addItem initState "A" 1) "B" 1).items
        = (if (addItem initState "A" 1).separatorPending
            then (addItem initState "A" 1).items ++ [separatorItem]
            else (addItem initState "A" 1).items)
          ++ [{ name := "B", itemId := 1, isEnabled := true, isHeading := false }] :=
  C4_release_misuse (addItem initState "A" 1) "B" "C" 9 1
    { name := "A", itemId := 1, isEnabled := true, isHeading := false }
    (by decide) (by decide) (by decide) (by decide)

/-- Refutation of C4 as stated: after `addItem "A" 1`, the id 1 is
present, yet a second `addItem "B" 1` changes the store (appends a
second entry) instead of being ignored. -/
theorem C4_counterexample :
    (getItemForId (addItem initState "A" 1) 1).isSome = true
    ∧ addItem (addItem initState "A" 1) "B" 1 ≠ addItem initState "A" 1
    ∧ (addItem (addItem initState "A" 1) "B" 1).items.length = 2 := by
  decide

/-!
## Popup menu construction (C8)
-/

theorem addMenuEntries_eq (selectedId : Int) (items : List ItemInfo)
    (menu : List MenuEntry) :
    addMenuEntries selectedId items menu
      = menu ++ items.map (menuEntryOf selectedId) := by
  induction items generalizing menu with
  | nil => simp [addMenuEntries]
  | cons it rest ih =>
    simp only [addMenuEntries, List.map_cons, ih, List.append_assoc,
      List.singleton_append]

/-- Whether a menu entry's tick mark agrees with the selection id. -/
def entryTickOk (selectedId : Int) : MenuEntry → Bool
  | .entry i _ _ tk => tk == (i == selectedId)
  | _ => true

theorem getSelectedId_of_items_nil {s : ComboBoxState} (h : s.items = []) :
    getSelectedId s = 0 := by
  simp [getSelectedId, getItemForId, h]

theorem entryTickOk_menuEntryOf (selectedId : Int) (it : ItemInfo) :
    entryTickOk selectedId (menuEntryOf selectedId it) = true := by
  simp only [menuEntryOf]
  split
  · rfl
  · split
    · rfl
    · simp [entryTickOk]

/-- C8: the popup menu lists the store's entries in order — separators
as menu separators, headings as section headers, real items as entries
enabled per their flag and ticked exactly when their id is the current
selection — and an empty store yields the single disabled "no choices"
placeholder. -/
theorem C8_buildPopupMenu (s : ComboBoxState) :
    (s.items = [] →
      buildPopupMenu s = [MenuEntry.entry 1 s.noChoicesMessage false false])
    ∧ (s.items ≠ [] →
      buildPopupMenu s = s.items.map (menuEntryOf (getSelectedId s)))
    ∧ (buildPopupMenu s).all (entryTickOk (getSelectedId s)) = true := by
  refine ⟨?_, ?_, ?_⟩
  · intro h
    simp [buildPopupMenu, h, addMenuEntries]
  · intro h
    have he : s.items.isEmpty = false := by
      simp [List.isEmpty_iff, h]
    simp [buildPopupMenu, he, addMenuEntries_eq]
  · by_cases he : s.items.isEmpty
    · have hnil := List.isEmpty_iff.mp he
      have hsel := getSelectedId_of_items_nil hnil
      simp [buildPopupMenu, he, hnil, addMenuEntries, entryTickOk, hsel]
    · simp only [buildPopupMenu, he, if_false, addMenuEntries_eq,
        List.nil_append, List.all_eq_true]
      intro e hmem
      obtain ⟨it, _, rfl⟩ := List.mem_map.mp hmem
      exact entryTickOk_menuEntryOf _ it

theorem C8_witness :
    ((setSelectedId (addItem initState "A" 1) 1).items = [] →
      buildPopupMenu (setSelectedId (addItem initState "A" 1) 1)
        = [MenuEntry.entry 1
            (setSelectedId (addItem initState "A" 1) 1).noChoicesMessage false false])
    ∧ ((setSelectedId (addItem initState "A" 1) 1).items ≠ [] →
      buildPopupMenu (setSelectedId (addItem initState "A" 1) 1)
        = (setSelectedId (addItem initState "A" 1) 1).items.map
            (menuEntryOf (getSelectedId (setSelectedId (addItem initState "A" 1) 1))))
    ∧ (buildPopupMenu (setSelectedId (addItem initState "A" 1) 1)).all
        (entryTickOk (getSelectedId (setSelectedId (addItem initState "A" 1) 1))) = true :=
  C8_buildPopupMenu (setSelectedId (addItem initState "A" 1) 1)

/-!
## Sequences of add operations (C5)
-/

/-- One call in a sequence of add operations. -/
inductive AddOp where
  | itemOp (text : String) (id : Int)
  | sepOp
  | headingOp (text : String)
deriving DecidableEq

/-- Apply one add operation to the widget. -/
def applyAddOp (s : ComboBoxState) : AddOp → ComboBoxState
  | .itemOp t i => addItem s t i
  | .sepOp => addSeparator s
  | .headingOp t => addSectionHeading s t

/-- Run a sequence of add operations. -/
def runAddOps (s : ComboBoxState) (ops : List AddOp) : ComboBoxState :=
  ops.foldl applyAddOp s

/-- An `itemOp` with non-empty text and non-zero id, as the claim assumes. -/
def addOpValid : AddOp → Bool
  | .itemOp t i => (t != "") && (i != 0)
  | _ => true

/-- The real item an operation appends, if any. -/
def addOpReal : AddOp → Option ItemInfo
  | .itemOp t i =>
      some { name := t, itemId := i, isEnabled := true, isHeading := false }
  | _ => none

/-- The id an `itemOp` carries, if any. -/
def addOpId : AddOp → Option Int
  | .itemOp _ i => some i
  | _ => none

/-- Number of `addItem` calls in the sequence. -/
def addOpItemCount (ops : List AddOp) : Nat :=
  ops.countP (fun op => (addOpReal op).isSome)

theorem separatorItem_not_real : separatorItem.isRealItem = false := rfl

theorem applyAddOp_filter (s : ComboBoxState) (op : AddOp)
    (hv : addOpValid op = true) :
    (applyAddOp s op).items.filter (fun it => it.isRealItem)
      = s.items.filter (fun it => it.isRealItem)
        ++ (addOpReal op).toList := by
  cases op with
  | itemOp t i =>
    simp only [addOpValid, Bool.and_eq_true, bne_iff_ne, ne_eq] at hv
    have hreal : ({ name := t, itemId := i, isEnabled := true, isHeading := false } : ItemInfo).isRealItem = true := by
      simp [ItemInfo.isRealItem, hv.1]
    by_cases hp : s.separatorPending
    · simp [applyAddOp, addItem, addOpReal, hv.1, hv.2, hp, List.filter_append,
        separatorItem_not_real, hreal]
    · simp [applyAddOp, addItem, addOpReal, hv.1, hv.2, hp, List.filter_append,
        hreal]
  | sepOp => simp [applyAddOp, addSeparator, addOpReal]
  | headingOp t =>
    by_cases hT : t = ""
    · simp [applyAddOp, addSectionHeading, hT, addOpReal]
    · have hreal : ({ name := t, itemId := 0, isEnabled := true, isHeading := true } : ItemInfo).isRealItem = false := by
        simp [ItemInfo.isRealItem]
      by_cases hp : s.separatorPending
      · simp [applyAddOp, addSectionHeading, addOpReal, hT, hp,
          List.filter_append, separatorItem_not_real, hreal]
      · simp [applyAddOp, addSectionHeading, addOpReal, hT, hp,
          List.filter_append, hreal]

theorem runAddOps_filter (ops : List AddOp) (h : ops.all addOpValid = true) :
    ∀ s : ComboBoxState,
    (runAddOps s ops).items.filter (fun it => it.isRealItem)
      = s.items.filter (fun it => it.isRealItem) ++ ops.filterMap addOpReal := by
  induction ops with
  | nil => intro s; simp [runAddOps]
  | cons op rest ih =>
    intro s
    rw [List.all_cons, Bool.and_eq_true] at h
    have h1 : runAddOps s (op :: rest) = runAddOps (applyAddOp s op) rest := rfl
    rw [h1, ih h.2 (applyAddOp s op), applyAddOp_filter s op h.1,
      List.filterMap_cons, List.append_assoc]
    cases hop : addOpReal op <;> simp [hop]

theorem length_filterMap_addOpReal (ops : List AddOp) :
    (ops.filterMap addOpReal).length = addOpItemCount ops := by
  induction ops with
  | nil => rfl
  | cons op rest ih =>
    cases op <;>
      simp [List.filterMap_cons, addOpReal, addOpItemCount, List.countP_cons,
        ih, addOpItemCount]

theorem indexOfItemIdAux_ge (items : List ItemInfo) (i : Int) :
    ∀ n : Int, (∃ it ∈ items, it.isRealItem = true ∧ it.itemId = i) →
    n ≤ indexOfItemIdAux items i n := by
  induction items with
  | nil =>
    intro n hex
    obtain ⟨it, h, _⟩ := hex
    simp at h
  | cons it rest ih =>
    intro n hex
    obtain ⟨x, hx, hxr, hxi⟩ := hex
    simp only [indexOfItemIdAux]
    by_cases hreal : it.isRealItem = true
    · simp only [hreal, if_true]
      by_cases heq : it.itemId = i
      · simp [heq]
      · simp only [heq, if_false]
        have hx' : x ∈ rest := by
          rcases List.mem_cons.mp hx with rfl | h2
          · exact absurd hxi heq
          · exact h2
        have := ih (n + 1) ⟨x, hx', hxr, hxi⟩
        omega
    · simp only [hreal, if_false]
      have hx' : x ∈ rest := by
        rcases List.mem_cons.mp hx with rfl | h2
        · exact absurd hxr hreal
        · exact h2
      exact ih n ⟨x, hx', hxr, hxi⟩

theorem roundtrip_aux (items : List ItemInfo) (i : Int) :
    ∀ n : Int, (∃ it ∈ items, it.isRealItem = true ∧ it.itemId = i) →
    ∃ it, getItemForIndexAux items n (indexOfItemIdAux items i n) = some it
      ∧ it.itemId = i := by
  induction items with
  | nil =>
    intro n hex
    obtain ⟨it, h, _⟩ := hex
    simp at h
  | cons it rest ih =>
    intro n hex
    obtain ⟨x, hx, hxr, hxi⟩ := hex
    by_cases hreal : it.isRealItem = true
    · by_cases heq : it.itemId = i
      · refine ⟨it, ?_, heq⟩
        simp [indexOfItemIdAux, getItemForIndexAux, hreal, heq]
      · have hx' : x ∈ rest := by
          rcases List.mem_cons.mp hx with rfl | h2
          · exact absurd hxi heq
          · exact h2
        have hge := indexOfItemIdAux_ge rest i (n + 1) ⟨x, hx', hxr, hxi⟩
        have hne : ¬(n = indexOfItemIdAux rest i (n + 1)) := by omega
        obtain ⟨y, hy, hyi⟩ := ih (n + 1) ⟨x, hx', hxr, hxi⟩
        refine ⟨y, ?_, hyi⟩
        simp only [indexOfItemIdAux, getItemForIndexAux, hreal, if_true, heq,
          if_false, hne]
        exact hy
    · have hx' : x ∈ rest := by
        rcases List.mem_cons.mp hx with rfl | h2
        · exact absurd hxr hreal
        · exact h2
      obtain ⟨y, hy, hyi⟩ := ih n ⟨x, hx', hxr, hxi⟩
      refine ⟨y, ?_, hyi⟩
      simp only [indexOfItemIdAux, getItemForIndexAux, hreal, if_false]
      exact hy

/-- C5: running any sequence of valid `addItem` calls (unique non-zero
ids, non-empty texts) interleaved with separators and headings from a
fresh widget yields `getNumItems` equal to the number of `addItem` calls,
and `getItemId (indexOfItemId id) = id` for every added id. -/
theorem C5_add_sequences (ops : List AddOp) (t : String) (i : Int)
    (hvalid : ops.all addOpValid = true)
    (hnodup : (ops.filterMap addOpId).Nodup)
    (hmem : AddOp.itemOp t i ∈ ops) :
    getNumItems (runAddOps initState ops) = addOpItemCount ops
    ∧ getItemId (runAddOps initState ops)
        (indexOfItemId (runAddOps initState ops) i) = i := by
  have hchar := runAddOps_filter ops hvalid initState
  have hinit : initState.items.filter (fun it => it.isRealItem) = [] := rfl
  rw [hinit, List.nil_append] at hchar
  constructor
  · rw [getNumItems, List.countP_eq_length_filter, hchar,
      length_filterMap_addOpReal]
  · have hv := List.all_eq_true.mp hvalid _ hmem
    simp only [addOpValid, Bool.and_eq_true, bne_iff_ne, ne_eq] at hv
    have hmk : ({ name := t, itemId := i, isEnabled := true, isHeading := false } : ItemInfo)
        ∈ ops.filterMap addOpReal :=
      List.mem_filterMap.mpr ⟨AddOp.itemOp t i, hmem, rfl⟩
    rw [← hchar] at hmk
    have hmem2 := List.mem_filter.mp hmk
    have hreal : ({ name := t, itemId := i, isEnabled := true, isHeading := false } : ItemInfo).isRealItem = true := by
      simp [ItemInfo.isRealItem, hv.1]
    obtain ⟨y, hy, hyi⟩ := roundtrip_aux (runAddOps initState ops).items i 0
      ⟨_, hmem2.1, hreal, rfl⟩
    rw [getItemId, getItemForIndex, indexOfItemId, hy]
    exact hyi

theorem C5_witness :
    getNumItems (runAddOps initState
        [AddOp.itemOp "A" 1, AddOp.sepOp, AddOp.itemOp "B" 2, AddOp.headingOp "H"])
      = addOpItemCount
        [AddOp.itemOp "A" 1, AddOp.sepOp, AddOp.itemOp "B" 2, AddOp.headingOp "H"]
    ∧ getItemId (runAddOps initState
        [AddOp.itemOp "A" 1, AddOp.sepOp, AddOp.itemOp "B" 2, AddOp.headingOp "H"])
        (indexOfItemId (runAddOps initState
          [AddOp.itemOp "A" 1, AddOp.sepOp, AddOp.itemOp "B" 2, AddOp.headingOp "H"]) 2)
      = 2 :=
  C5_add_sequences
    [AddOp.itemOp "A" 1, AddOp.sepOp, AddOp.itemOp "B" 2, AddOp.headingOp "H"]
    "B" 2 (by decide) (by decide) (by decide)

/-!
## Separator placement masks (C9)
-/

/-- The head of the separator mask is not a separator. -/
def headNotTrue : List Bool → Bool
  | [] => true
  | b :: _ => ! b

/-- Every `true` in the mask is followed by a `false`: no separator is
last, and no two separators are adjacent. -/
def sepChainOk : List Bool → Bool
  | [] => true
  | [b] => ! b
  | b :: b2 :: rest => (! b || ! b2) && sepChainOk (b2 :: rest)

/-- No two adjacent `true`s in the mask. -/
def noAdjacentSeps : List Bool → Bool
  | b :: b2 :: rest => (! (b && b2)) && noAdjacentSeps (b2 :: rest)
  | _ => true

theorem sepChainOk_imp_noAdjacentSeps (m : List Bool)
    (h : sepChainOk m = true) : noAdjacentSeps m = true := by
  induction m with
  | nil => rfl
  | cons b rest ih =>
    cases rest with
    | nil => rfl
    | cons b2 rest2 =>
      simp only [sepChainOk, Bool.and_eq_true] at h
      have := ih h.2
      simp only [noAdjacentSeps, Bool.and_eq_true, this, and_true,
        Bool.not_and]
      exact h.1

theorem sepChainOk_append_false (m : List Bool) (h : sepChainOk m = true) :
    sepChainOk (m ++ [false]) = true := by
  induction m with
  | nil => rfl
  | cons b rest ih =>
    cases rest with
    | nil =>
      simp only [sepChainOk] at h
      simp [sepChainOk, h]
    | cons b2 rest2 =>
      simp only [sepChainOk, Bool.and_eq_true] at h
      have := ih h.2
      simp only [List.cons_append] at this ⊢
      simp [sepChainOk, h.1, this]

theorem sepChainOk_append_true_false (m : List Bool) (hne : m ≠ [])
    (h : sepChainOk m = true) : sepChainOk (m ++ [true, false]) = true := by
  induction m with
  | nil => exact absurd rfl hne
  | cons b rest ih =>
    cases rest with
    | nil =>
      simp only [sepChainOk] at h
      simp [sepChainOk, h]
    | cons b2 rest2 =>
      simp only [sepChainOk, Bool.and_eq_true] at h
      have := ih (List.cons_ne_nil _ _) h.2
      simp only [List.cons_append] at this ⊢
      simp [sepChainOk, h.1, this]

theorem headNotTrue_append (m l : List Bool) (hne : m ≠ []) :
    headNotTrue (m ++ l) = headNotTrue m := by
  cases m with
  | nil => exact absurd rfl hne
  | cons b rest => rfl

/-!
## The store well-formedness invariant
-/

/-- Well-formedness of the store under non-empty renames: non-zero-id
entries are real items, real items have non-zero ids, a pending
separator implies a non-empty store, and the separator mask neither
starts with a separator nor lets one go unfollowed. -/
def ItemsWF (s : ComboBoxState) : Prop :=
  (∀ it ∈ s.items, it.itemId ≠ 0 → it.isRealItem = true)
  ∧ (∀ it ∈ s.items, it.isRealItem = true → it.itemId ≠ 0)
  ∧ (s.separatorPending = true → s.items ≠ [])
  ∧ headNotTrue (s.items.map ItemInfo.isSeparator) = true
  ∧ sepChainOk (s.items.map ItemInfo.isSeparator) = true

theorem itemsWF_of_eq {s1 s2 : ComboBoxState} (h1 : s2.items = s1.items)
    (h2 : s2.separatorPending = s1.separatorPending) (h : ItemsWF s1) :
    ItemsWF s2 := by
  unfold ItemsWF
  rw [h1, h2]
  exact h

theorem initState_wf : ItemsWF initState := by
  refine ⟨?_, ?_, ?_, rfl, rfl⟩ <;> simp [initState]

/-- The real item `addItem` appends. -/
def newRealItem (t : String) (i : Int) : ItemInfo :=
  { name := t, itemId := i, isEnabled := true, isHeading := false }

/-- The heading entry `addSectionHeading` appends. -/
def newHeadingItem (t : String) : ItemInfo :=
  { name := t, itemId := 0, isEnabled := true, isHeading := true }

theorem newRealItem_real (t : String) (i : Int) (ht : t ≠ "") :
    (newRealItem t i).isRealItem = true := by
  simp [newRealItem, ItemInfo.isRealItem, ht]

theorem newRealItem_not_sep (t : String) (i : Int) (ht : t ≠ "") :
    (newRealItem t i).isSeparator = false := by
  simp [newRealItem, ItemInfo.isSeparator, ht]

theorem addItem_wf (s : ComboBoxState) (t : String) (i : Int)
    (h : ItemsWF s) : ItemsWF (addItem s t i) := by
  obtain ⟨h1, h2, h3, h4, h5⟩ := h
  by_cases hv : t ≠ "" ∧ i ≠ 0
  · have hmk1 := newRealItem_real t i hv.1
    have hmk2 := newRealItem_not_sep t i hv.1
    have hpend : (addItem s t i).separatorPending = false := by
      simp [addItem, hv.1, hv.2]
    by_cases hp : s.separatorPending = true
    · have hne := h3 hp
      have hmne : s.items.map ItemInfo.isSeparator ≠ [] := by simpa using hne
      have hitems : (addItem s t i).items
          = s.items ++ [separatorItem, newRealItem t i] := by
        simp [addItem, hv.1, hv.2, hp, newRealItem]
      refine ⟨?_, ?_, ?_, ?_, ?_⟩
      · rw [hitems]
        intro it hit hz
        rcases List.mem_append.mp hit with hold | hnew
        · exact h1 it hold hz
        · simp only [List.mem_cons, List.not_mem_nil, or_false] at hnew
          rcases hnew with rfl | rfl
          · exact absurd rfl hz
          · exact hmk1
      · rw [hitems]
        intro it hit hreal
        rcases List.mem_append.mp hit with hold | hnew
        · exact h2 it hold hreal
        · simp only [List.mem_cons, List.not_mem_nil, or_false] at hnew
          rcases hnew with rfl | rfl
          · simp [separatorItem, ItemInfo.isRealItem] at hreal
          · exact hv.2
      · simp [hpend]
      · rw [hitems, List.map_append, headNotTrue_append _ _ hmne]
        exact h4
      · rw [hitems, List.map_append]
        have hm : [separatorItem, newRealItem t i].map ItemInfo.isSeparator
            = [true, false] := by
          simp only [List.map_cons, List.map_nil, hmk2]
          rfl
        rw [hm]
        exact sepChainOk_append_true_false _ hmne h5
    · have hpf : s.separatorPending = false := by simpa using hp
      have hitems : (addItem s t i).items = s.items ++ [newRealItem t i] := by
        simp [addItem, hv.1, hv.2, hpf, newRealItem]
      refine ⟨?_, ?_, ?_, ?_, ?_⟩
      · rw [hitems]
        intro it hit hz
        rcases List.mem_append.mp hit with hold | hnew
        · exact h1 it hold hz
        · rw [List.mem_singleton.mp hnew]
          exact hmk1
      · rw [hitems]
        intro it hit hreal
        rcases List.mem_append.mp hit with hold | hnew
        · exact h2 it hold hreal
        · rw [List.mem_singleton.mp hnew]
          exact hv.2
      · simp [hpend]
      · rw [hitems, List.map_append]
        by_cases hnil : s.items = []
        · rw [hnil]
          simp [headNotTrue, hmk2]
        · rw [headNotTrue_append _ _ (by simpa using hnil)]
          exact h4
      · rw [hitems, List.map_append]
        have hm : [newRealItem t i].map ItemInfo.isSeparator = [false] := by
          simp [hmk2]
        rw [hm]
        exact sepChainOk_append_false _ h5
  · simp only [addItem, hv, if_false]
    exact ⟨h1, h2, h3, h4, h5⟩

theorem addSectionHeading_wf (s : ComboBoxState) (t : String)
    (h : ItemsWF s) : ItemsWF (addSectionHeading s t) := by
  obtain ⟨h1, h2, h3, h4, h5⟩ := h
  by_cases hT : t = ""
  · simp only [addSectionHeading, hT, ne_eq, not_true, if_false]
    exact ⟨h1, h2, h3, h4, h5⟩
  · have hmk1 : (newHeadingItem t).isRealItem = false := by
      simp [newHeadingItem, ItemInfo.isRealItem]
    have hmk2 : (newHeadingItem t).isSeparator = false := by
      simp [newHeadingItem, ItemInfo.isSeparator, hT]
    have hmk3 : (newHeadingItem t).itemId = 0 := rfl
    have hpend : (addSectionHeading s t).separatorPending = false := by
      simp [addSectionHeading, hT]
    by_cases hp : s.separatorPending = true
    · have hne := h3 hp
      have hmne : s.items.map ItemInfo.isSeparator ≠ [] := by simpa using hne
      have hitems : (addSectionHeading s t).items
          = s.items ++ [separatorItem, newHeadingItem t] := by
        simp [addSectionHeading, hT, hp, newHeadingItem]
      refine ⟨?_, ?_, ?_, ?_, ?_⟩
      · rw [hitems]
        intro it hit hz
        rcases List.mem_append.mp hit with hold | hnew
        · exact h1 it hold hz
        · simp only [List.mem_cons, List.not_mem_nil, or_false] at hnew
          rcases hnew with rfl | rfl
          · exact absurd rfl hz
          · exact absurd hmk3 hz
      · rw [hitems]
        intro it hit hreal
        rcases List.mem_append.mp hit with hold | hnew
        · exact h2 it hold hreal
        · simp only [List.mem_cons, List.not_mem_nil, or_false] at hnew
          rcases hnew with rfl | rfl
          · simp [separatorItem, ItemInfo.isRealItem] at hreal
          · rw [hmk1] at hreal
            simp at hreal
      · simp [hpend]
      · rw [hitems, List.map_append, headNotTrue_append _ _ hmne]
        exact h4
      · rw [hitems, List.map_append]
        have hm : [separatorItem, newHeadingItem t].map ItemInfo.isSeparator
            = [true, false] := by
          simp only [List.map_cons, List.map_nil, hmk2]
          rfl
        rw [hm]
        exact sepChainOk_append_true_false _ hmne h5
    · have hpf : s.separatorPending = false := by simpa using hp
      have hitems : (addSectionHeading s t).items
          = s.items ++ [newHeadingItem t] := by
        simp [addSectionHeading, hT, hpf, newHeadingItem]
      refine ⟨?_, ?_, ?_, ?_, ?_⟩
      · rw [hitems]
        intro it hit hz
        rcases List.mem_append.mp hit with hold | hnew
        · exact h1 it hold hz
        · rw [List.mem_singleton.mp hnew] at hz
          exact absurd hmk3 hz
      · rw [hitems]
        intro it hit hreal
        rcases List.mem_append.mp hit with hold | hnew
        · exact h2 it hold hreal
        · rw [List.mem_singleton.mp hnew] at hreal
          rw [hmk1] at hreal
          simp at hreal
      · simp [hpend]
      · rw [hitems, List.map_append]
        by_cases hnil : s.items = []
        · rw [hnil]
          simp [headNotTrue, hmk2]
        · rw [headNotTrue_append _ _ (by simpa using hnil)]
          exact h4
      · rw [hitems, List.map_append]
        have hm : [newHeadingItem t].map ItemInfo.isSeparator = [false] := by
          simp [hmk2]
        rw [hm]
        exact sepChainOk_append_false _ h5

theorem addSeparator_wf (s : ComboBoxState) (h : ItemsWF s) :
    ItemsWF (addSeparator s) := by
  obtain ⟨h1, h2, _, h4, h5⟩ := h
  refine ⟨h1, h2, ?_, h4, h5⟩
  intro hp
  simp only [addSeparator] at hp
  simpa [List.isEmpty_iff] using hp

theorem updateLast_wf (s : ComboBoxState) (p : ItemInfo → Bool)
    (f : ItemInfo → ItemInfo)
    (hkeep : ∀ x ∈ s.items, p x = true →
      (f x).isRealItem = x.isRealItem ∧ (f x).itemId = x.itemId
        ∧ (f x).isSeparator = x.isSeparator)
    (h : ItemsWF s) (s2 : ComboBoxState)
    (hitems : s2.items = updateLast p f s.items)
    (hpend : s2.separatorPending = s.separatorPending) : ItemsWF s2 := by
  obtain ⟨h1, h2, h3, h4, h5⟩ := h
  have hmask : (updateLast p f s.items).map ItemInfo.isSeparator
      = s.items.map ItemInfo.isSeparator :=
    map_updateLast p f ItemInfo.isSeparator s.items
      (fun x hx hpx => (hkeep x hx hpx).2.2)
  refine ⟨?_, ?_, ?_, ?_, ?_⟩
  · rw [hitems]
    intro it hit hz
    rcases mem_updateLast hit with hold | ⟨x, hx, hpx, rfl⟩
    · exact h1 it hold hz
    · rw [(hkeep x hx hpx).1]
      exact h1 x hx (fun h0 => hz ((hkeep x hx hpx).2.1.trans h0))
  · rw [hitems]
    intro it hit hreal
    rcases mem_updateLast hit with hold | ⟨x, hx, hpx, rfl⟩
    · exact h2 it hold hreal
    · rw [(hkeep x hx hpx).2.1]
      exact h2 x hx ((hkeep x hx hpx).1.symm.trans hreal)
  · rw [hitems, hpend]
    intro hp
    have := h3 hp
    rw [Ne, updateLast_eq_nil_iff]
    exact this
  · rw [hitems, hmask]
    exact h4
  · rw [hitems, hmask]
    exact h5

theorem setItemEnabled_wf (s : ComboBoxState) (i : Int) (b : Bool)
    (h : ItemsWF s) : ItemsWF (setItemEnabled s i b) := by
  by_cases hi : i = 0
  · simp only [setItemEnabled, hi, if_true]
    exact h
  · refine updateLast_wf s (fun it => it.itemId == i)
      (fun it => { it with isEnabled := b }) ?_ h (setItemEnabled s i b) ?_ ?_
    · intro x _ _
      exact ⟨rfl, rfl, rfl⟩
    · simp [setItemEnabled, hi]
    · simp [setItemEnabled, hi]

theorem changeItemText_wf (s : ComboBoxState) (i : Int) (t : String)
    (ht : t ≠ "") (h : ItemsWF s) : ItemsWF (changeItemText s i t) := by
  by_cases hi : i = 0
  · simp only [changeItemText, hi, if_true]
    exact h
  · refine updateLast_wf s (fun it => it.itemId == i)
      (fun it => { it with name := t }) ?_ h (changeItemText s i t) ?_ ?_
    · intro x hx hpx
      have hxi : x.itemId = i := by simpa using hpx
      have hxreal : x.isRealItem = true := h.1 x hx (hxi ▸ hi)
      have hor : (x.isHeading || (x.name == "")) = false := by
        have h0 := hxreal
        rw [ItemInfo.isRealItem, Bool.not_eq_true'] at h0
        exact h0
      have hxh : x.isHeading = false := (Bool.or_eq_false_iff.mp hor).1
      have hxn : (x.name == "") = false := (Bool.or_eq_false_iff.mp hor).2
      refine ⟨?_, rfl, ?_⟩
      · simp only [ItemInfo.isRealItem]
        simp [hxh, ht, hxn]
      · simp only [ItemInfo.isSeparator]
        simp [ht, hxn]
    · simp [changeItemText, hi]
    · simp [changeItemText, hi]

theorem clear_wf (s : ComboBoxState) : ItemsWF (clear s) := by
  refine @itemsWF_of_eq initState (clear s) ?_ ?_ initState_wf
  · rw [clear_items]
    rfl
  · rw [clear_separatorPending]
    rfl

theorem setSelectedId_wf (s : ComboBoxState) (i : Int) (h : ItemsWF s) :
    ItemsWF (setSelectedId s i) :=
  itemsWF_of_eq (setSelectedId_items s i) (setSelectedId_separatorPending s i) h

theorem setText_wf (s : ComboBoxState) (t : String) (h : ItemsWF s) :
    ItemsWF (setText s t) :=
  itemsWF_of_eq (setText_items s t) (setText_separatorPending s t) h

/-- Every state reachable with non-empty renames is well-formed. -/
theorem reachableNE_wf {s : ComboBoxState} (h : ReachableNE s) : ItemsWF s := by
  induction h with
  | init => exact initState_wf
  | add s t i _ ih => exact addItem_wf s t i ih
  | heading s t _ ih => exact addSectionHeading_wf s t ih
  | sep s _ ih => exact addSeparator_wf s ih
  | enable s i b _ ih => exact setItemEnabled_wf s i b ih
  | rename s i t _ ht ih => exact changeItemText_wf s i t ht ih
  | wipe s _ _ => exact clear_wf s
  | selId s i _ ih => exact setSelectedId_wf s i ih
  | selIdx s i _ ih => exact setSelectedId_wf s _ ih
  | text s t _ ih => exact setText_wf s t ih
  | editable s b _ ih => exact itemsWF_of_eq rfl rfl ih

/-- C9 (amended): reachable with non-empty renames, the store never
starts with a separator and never holds two adjacent separators;
`addSeparator` on an empty store is a no-op, and `addSeparator` is
idempotent, so consecutive calls queue at most one separator. -/
theorem C9_separator_placement (s : ComboBoxState) (h : ReachableNE s) :
    headNotTrue (s.items.map ItemInfo.isSeparator) = true
    ∧ noAdjacentSeps (s.items.map ItemInfo.isSeparator) = true
    ∧ (s.items = [] → addSeparator s = s)
    ∧ addSeparator (addSeparator s) = addSeparator s := by
  obtain ⟨h1, h2, h3, h4, h5⟩ := reachableNE_wf h
  refine ⟨h4, sepChainOk_imp_noAdjacentSeps _ h5, ?_, rfl⟩
  intro hnil
  have hp : s.separatorPending = false := by
    by_cases hp : s.separatorPending = true
    · exact absurd hnil (h3 hp)
    · simpa using hp
  have hval : (! s.items.isEmpty) = s.separatorPending := by
    rw [hnil, hp]
    rfl
  rw [addSeparator, hval]

theorem C9_witness :
    headNotTrue ((addItem initState "A" 1).items.map ItemInfo.isSeparator) = true
    ∧ noAdjacentSeps ((addItem initState "A" 1).items.map ItemInfo.isSeparator) = true
    ∧ ((addItem initState "A" 1).items = []
        → addSeparator (addItem initState "A" 1) = addItem initState "A" 1)
    ∧ addSeparator (addSeparator (addItem initState "A" 1))
        = addSeparator (addItem initState "A" 1) :=
  C9_separator_placement (addItem initState "A" 1)
    (ReachableNE.add initState "A" 1 ReachableNE.init)

/-- Refutation of C9 as stated: renaming items to empty text (which
release builds accept) yields a reachable store whose separator mask is
`[true, true]` — it begins with a separator and has two adjacent ones. -/
theorem C9_counterexample :
    Reachable (changeItemText (changeItemText
        (addItem (addItem initState "A" 1) "B" 2) 1 "") 2 "")
    ∧ (changeItemText (changeItemText
        (addItem (addItem initState "A" 1) "B" 2) 1 "") 2 "").items.map
          ItemInfo.isSeparator = [true, true] := by
  constructor
  · exact Reachable.rename _ 2 "" (Reachable.rename _ 1 ""
      (Reachable.add _ "B" 2 (Reachable.add _ "A" 1 Reachable.init)))
  · decide

/-- C10 (amended): with non-empty renames, a non-zero `getSelectedId`
is always the id of a real item in the store. -/
theorem C10_selection_is_real (s : ComboBoxState) (h : ReachableNE s) :
    getSelectedId s = 0
    ∨ s.items.any (fun it => it.isRealItem && (it.itemId == getSelectedId s)) = true := by
  obtain ⟨h1, _, _, _, _⟩ := reachableNE_wf h
  cases hf : getItemForId s s.currentId with
  | none =>
    left
    rw [getSelectedId_def, hf]
  | some it =>
    obtain ⟨hid, hz, hmem⟩ := getItemForId_eq_some hf
    by_cases hlab : s.labelText = it.name
    · right
      have hsel : getSelectedId s = it.itemId := by
        rw [getSelectedId_def, hf]
        simp [hlab]
      rw [List.any_eq_true]
      refine ⟨it, hmem, ?_⟩
      rw [hsel]
      simp [h1 it hmem (hid ▸ hz)]
    · left
      rw [getSelectedId_def, hf]
      simp [hlab]

theorem C10_witness :
    getSelectedId (setSelectedId (addItem initState "A" 1) 1) = 0
    ∨ (setSelectedId (addItem initState "A" 1) 1).items.any
        (fun it => it.isRealItem
          && (it.itemId == getSelectedId (setSelectedId (addItem initState "A" 1) 1)))
        = true :=
  C10_selection_is_real (setSelectedId (addItem initState "A" 1) 1)
    (ReachableNE.selId (addItem initState "A" 1) 1
      (ReachableNE.add initState "A" 1 ReachableNE.init))

/-- Refutation of C10 as stated: rename the only item to empty text and
select its id — `getSelectedId` returns 1, yet no entry of the store is
a real item. -/
theorem C10_counterexample :
    Reachable (setSelectedId (changeItemText (addItem initState "A" 1) 1 "") 1)
    ∧ getSelectedId (setSelectedId
        (changeItemText (addItem initState "A" 1) 1 "") 1) = 1
    ∧ (setSelectedId (changeItemText (addItem initState "A" 1) 1 "") 1).items.all
        (fun it => ! it.isRealItem) = true := by
  refine ⟨?_, by decide, by decide⟩
  exact Reachable.selId _ 1 (Reachable.rename _ 1 ""
    (Reachable.add _ "A" 1 Reachable.init))

/-!
## Uniqueness of real item ids (C1)
-/

/-- The id a store entry contributes to the list of real-item ids. -/
def realIdOf (it : ItemInfo) : Option Int :=
  if it.isRealItem then some it.itemId else none

/-- The ids of the real items, in store order. -/
def realIds (l : List ItemInfo) : List Int :=
  l.filterMap realIdOf

theorem realIds_eq (l : List ItemInfo) :
    realIds l = (l.filter (fun it => it.isRealItem)).map (fun it => it.itemId) := by
  induction l with
  | nil => rfl
  | cons it rest ih =>
    have ih2 : List.filterMap realIdOf rest
        = List.map (fun it => it.itemId)
            (List.filter (fun it => it.isRealItem) rest) := ih
    by_cases hreal : it.isRealItem = true
    · simp [realIds, realIdOf, List.filterMap_cons, List.filter_cons, hreal, ih2]
    · simp only [Bool.not_eq_true] at hreal
      simp [realIds, realIdOf, List.filterMap_cons, List.filter_cons, hreal, ih2]

theorem mem_realIds {l : List ItemInfo} {a : Int} (h : a ∈ realIds l) :
    ∃ x ∈ l, x.isRealItem = true ∧ x.itemId = a := by
  obtain ⟨x, hx, hgx⟩ := List.mem_filterMap.mp h
  by_cases hreal : x.isRealItem = true
  · simp only [realIdOf, hreal, if_true, Option.some_inj] at hgx
    exact ⟨x, hx, hreal, hgx⟩
  · simp [realIdOf, hreal] at hgx

theorem filterMap_updateLast (p : ItemInfo → Bool) (f : ItemInfo → ItemInfo)
    (g : ItemInfo → Option Int) (l : List ItemInfo)
    (h : ∀ x ∈ l, p x = true → g (f x) = g x) :
    (updateLast p f l).filterMap g = l.filterMap g := by
  induction l with
  | nil => rfl
  | cons it rest ih =>
    simp only [updateLast]
    by_cases hrest : rest.any p = true
    · simp only [hrest, if_true, List.filterMap_cons]
      rw [ih (fun x hx hpx => h x (List.mem_cons_of_mem _ hx) hpx)]
    · simp only [Bool.not_eq_true] at hrest
      simp only [hrest, Bool.false_eq_true, if_false]
      by_cases hit : p it = true
      · simp [List.filterMap_cons, hit,
          h it (List.mem_cons_self it rest) hit]
      · simp only [hit]
        simp

/-- With fresh ids on every `addItem` (and non-empty renames), the ids
of the real items are pairwise distinct. -/
theorem reachableWF_nodup {s : ComboBoxState} (h : ReachableWF s) :
    (realIds s.items).Nodup := by
  induction h with
  | init => exact List.nodup_nil
  | add s t i hs hfresh ih =>
    by_cases hv : t ≠ "" ∧ i ≠ 0
    · have hitems : (addItem s t i).items
          = (if s.separatorPending then s.items ++ [separatorItem] else s.items)
            ++ [newRealItem t i] := by
        simp [addItem, hv.1, hv.2, newRealItem]
      have hbase : realIds (if s.separatorPending
          then s.items ++ [separatorItem] else s.items) = realIds s.items := by
        split
        · simp [realIds, List.filterMap_append, List.filterMap_cons, realIdOf,
            separatorItem, ItemInfo.isRealItem]
        · rfl
      have hmk : realIdOf (newRealItem t i) = some i := by
        simp only [realIdOf, newRealItem_real t i hv.1, if_true]
        rfl
      have hall : realIds (addItem s t i).items = realIds s.items ++ [i] := by
        rw [hitems]
        rw [realIds, List.filterMap_append, ← realIds, ← realIds, hbase]
        simp [realIds, List.filterMap_cons, hmk]
      rw [hall, List.nodup_append]
      refine ⟨ih, List.nodup_singleton i, ?_⟩
      intro a ha hb
      rw [List.mem_singleton] at hb
      subst hb
      obtain ⟨x, hx, hxr, hxi⟩ := mem_realIds ha
      have hsome := getItemForId_isSome_of_mem hx hxi hv.2
      rw [hfresh] at hsome
      simp at hsome
    · simp only [addItem, hv, if_false]
      exact ih
  | heading s t hs ih =>
    by_cases hT : t = ""
    · simp only [addSectionHeading, hT, ne_eq, not_true, if_false]
      exact ih
    · have hitems : (addSectionHeading s t).items
          = (if s.separatorPending then s.items ++ [separatorItem] else s.items)
            ++ [newHeadingItem t] := by
        simp [addSectionHeading, hT, newHeadingItem]
      have hbase : realIds (if s.separatorPending
          then s.items ++ [separatorItem] else s.items) = realIds s.items := by
        split
        · simp [realIds, List.filterMap_append, List.filterMap_cons, realIdOf,
            separatorItem, ItemInfo.isRealItem]
        · rfl
      have hall : realIds (addSectionHeading s t).items = realIds s.items := by
        rw [hitems]
        rw [realIds, List.filterMap_append, ← realIds, ← realIds, hbase]
        simp [realIds, List.filterMap_cons, realIdOf, newHeadingItem,
          ItemInfo.isRealItem]
      rw [hall]
      exact ih
  | sep s hs ih => exact ih
  | enable s i b hs ih =>
    by_cases hi : i = 0
    · simp only [setItemEnabled, hi, if_true]
      exact ih
    · have hitems : (setItemEnabled s i b).items
          = updateLast (fun it => it.itemId == i)
              (fun it => { it with isEnabled := b }) s.items := by
        simp [setItemEnabled, hi]
      rw [realIds, hitems,
        filterMap_updateLast (fun it => it.itemId == i)
          (fun it => { it with isEnabled := b }) realIdOf s.items
          (fun x _ _ => rfl),
        ← realIds]
      exact ih
  | rename s i t hs ht ih =>
    by_cases hi : i = 0
    · simp only [changeItemText, hi, if_true]
      exact ih
    · have hwf := reachableNE_wf (reachableWF_toNE hs)
      have hitems : (changeItemText s i t).items
          = updateLast (fun it => it.itemId == i)
              (fun it => { it with name := t }) s.items := by
        simp [changeItemText, hi]
      have hcond : ∀ x ∈ s.items, (x.itemId == i) = true →
          realIdOf { x with name := t } = realIdOf x := by
        intro x hx hpx
        have hxi : x.itemId = i := by simpa using hpx
        have hxreal : x.isRealItem = true := hwf.1 x hx (hxi ▸ hi)
        have hor : (x.isHeading || (x.name == "")) = false := by
          have h0 := hxreal
          rw [ItemInfo.isRealItem, Bool.not_eq_true'] at h0
          exact h0
        have hxh : x.isHeading = false := (Bool.or_eq_false_iff.mp hor).1
        have hnewreal : ({ x with name := t } : ItemInfo).isRealItem = true := by
          simp [ItemInfo.isRealItem, hxh, ht]
        simp [realIdOf, hnewreal, hxreal]
      rw [realIds, hitems, filterMap_updateLast _ _ _ _ hcond, ← realIds]
      exact ih
  | wipe s hs ih =>
    rw [clear_items]
    exact List.nodup_nil
  | selId s i hs ih =>
    rw [realIds, setSelectedId_items, ← realIds]
    exact ih
  | selIdx s i hs ih =>
    rw [realIds, setSelectedItemIndex, setSelectedId_items, ← realIds]
    exact ih
  | text s t hs ih =>
    rw [realIds, setText_items, ← realIds]
    exact ih
  | editable s b hs ih => exact ih

/-- C1 (amended): in every state reached with fresh `addItem` ids and
non-empty renames, every separator/heading entry (the non-real entries)
has id 0, and every real item has a non-empty name and a non-zero id
distinct from every other real item's id. -/
theorem C1_store_invariant (s : ComboBoxState) (h : ReachableWF s) :
    s.items.all (fun it => it.isRealItem || (it.itemId == 0)) = true
    ∧ s.items.all (fun it => !it.isRealItem
        || (!(it.name == "") && !(it.itemId == 0))) = true
    ∧ ((s.items.filter (fun it => it.isRealItem)).map
        (fun it => it.itemId)).Nodup := by
  obtain ⟨h1, h2, _, _, _⟩ := reachableNE_wf (reachableWF_toNE h)
  refine ⟨?_, ?_, ?_⟩
  · rw [List.all_eq_true]
    intro it hit
    by_cases hz : it.itemId = 0
    · simp [hz]
    · simp [h1 it hit hz]
  · rw [List.all_eq_true]
    intro it hit
    by_cases hreal : it.isRealItem = true
    · have hid := h2 it hit hreal
      have hor : (it.isHeading || (it.name == "")) = false := by
        have h0 := hreal
        rw [ItemInfo.isRealItem, Bool.not_eq_true'] at h0
        exact h0
      have hn : (it.name == "") = false := (Bool.or_eq_false_iff.mp hor).2
      have hidb : (it.itemId == 0) = false := by simpa using hid
      simp [hreal, hn, hidb]
    · simp only [Bool.not_eq_true] at hreal
      simp [hreal]
  · rw [← realIds_eq]
    exact reachableWF_nodup h

theorem C1_witness :
    (addItem initState "A" 1).items.all
      (fun it => it.isRealItem || (it.itemId == 0)) = true
    ∧ (addItem initState "A" 1).items.all
        (fun it => !it.isRealItem
          || (!(it.name == "") && !(it.itemId == 0))) = true
    ∧ (((addItem initState "A" 1).items.filter (fun it => it.isRealItem)).map
        (fun it => it.itemId)).Nodup :=
  C1_store_invariant (addItem initState "A" 1)
    (ReachableWF.add initState "A" 1 ReachableWF.init (by decide))

/-- Refutation of C1 as stated: release builds accept a duplicate id in
`addItem` and an empty rename in `changeItemText`, yielding a reachable
store whose real items have ids `[1, 1]` and which holds a
separator-classified entry with non-zero id 2. -/
theorem C1_counterexample :
    Reachable (changeItemText
      (addItem (addItem (addItem initState "A" 1) "B" 1) "C" 2) 2 "")
    ∧ (((changeItemText
        (addItem (addItem (addItem initState "A" 1) "B" 1) "C" 2) 2 "").items.filter
          (fun it => it.isRealItem)).map (fun it => it.itemId)) = [1, 1]
    ∧ (changeItemText
        (addItem (addItem (addItem initState "A" 1) "B" 1) "C" 2) 2 "").items.any
          (fun it => it.isSeparator && !(it.itemId == 0)) = true := by
  refine ⟨?_, by decide, by decide⟩
  exact Reachable.rename _ 2 "" (Reachable.add _ "C" 2
    (Reachable.add _ "B" 1 (Reachable.add _ "A" 1 Reachable.init)))
